import Mathlib

/-!
Shallow embedding of the aiva-searchandising catalog/recommendation pipeline.

Sources embedded here:
* `src/catalog/catalog.service.ts` — `embedAndStoreProducts`, `createEmbeddingText`,
  `searchProductsBySimilarity`, `getProductsByIds`;
* `src/repositories/product.repository.ts` — `findBySimilarity`, `findByIds`, `upsert`;
* `src/recommendation/strategies/recommendation-strategy.interface.ts` — the base
  strategy's `filterProductsForStep` and the haircare strategy's override,
  `getStepConfigurations`, `generatePrompt`, `generateRecommendation`.

Modelling conventions: JavaScript strings are Lean `String`s; nullable fields are
`Option`; machine floats from the embedding service are modelled as `ℚ`; the
external SQL store is a `List Row`; external calls (embedding service, AI chat,
database writes) are oracle parameters; wall-clock time is an opaque `String`
parameter where it only feeds log messages.
-/

namespace Aiva

/-- A product as handled by the service layer (`ShopifyProduct` /
`Product` in `e-commerce.interface.ts`): `category`, `image`, `price` nullable. -/
structure Product where
  shopifyId : String
  title : String
  description : String
  tags : List String
  category : Option String
  image : Option String
  price : Option String
  deriving Repr, DecidableEq

/-- JS `a ?? ''` on a nullable string. -/
def jsOrEmpty (o : Option String) : String := o.getD ""

/-- Is `pat` a prefix of `s` (character lists)? Backs the JS `String.includes`. -/
def charsHavePre : List Char → List Char → Bool
  | [], _ => true
  | _ :: _, [] => false
  | a :: as, b :: bs => a == b && charsHavePre as bs

/-- Does `pat` occur as a contiguous segment of `s`? Backs JS `String.includes`. -/
def charsHaveSub (pat : List Char) : List Char → Bool
  | [] => charsHavePre pat []
  | c :: rest => charsHavePre pat (c :: rest) || charsHaveSub pat rest

/-- JS `s.includes(pat)`. -/
def strIncludes (s pat : String) : Bool := charsHaveSub pat.toList s.toList

/-- JS `s.toLowerCase()` (character-wise lowering). -/
def lowerStr (s : String) : String := String.mk (s.toList.map Char.toLower)

/-- Embeds `StepConfiguration.filter.category` from `recommendation.interface.ts`:
`equals` / `contains` / `in`, each optional. -/
structure CategoryFilter where
  eqTo : Option String
  contains : Option String
  inList : Option (List String)
  deriving Repr, DecidableEq

/-- Embeds `StepConfiguration.filter.tags`: `hasAny` / `hasAll` / `excludes`, optional. -/
structure TagsFilter where
  hasAny : Option (List String)
  hasAll : Option (List String)
  excludes : Option (List String)
  deriving Repr, DecidableEq

/-- Embeds `StepConfiguration.filter`. -/
structure StepFilter where
  category : Option CategoryFilter
  tags : Option TagsFilter
  deriving Repr, DecidableEq

/-- Embeds `StepConfiguration`: step name, order, filter. -/
structure StepConfiguration where
  name : String
  order : Nat
  filter : StepFilter
  deriving Repr, DecidableEq

/-- The predicate of `BaseRecommendationStrategy.filterProductsForStep`
(lines 67–107 of `recommendation-strategy.interface.ts`).  JS truthiness: the
string guards `filter.category.equals` / `filter.category.contains` are skipped
when the string is empty (falsy), which we render as the `g == ""` disjunct;
array-valued guards are applied even when empty (arrays are truthy in JS). -/
def stepFilterPred (f : StepFilter) (p : Product) : Bool :=
  (match f.category with
    | none => true
    | some cf =>
      let category := lowerStr (jsOrEmpty p.category)
      (match cf.eqTo with
        | none => true
        | some g => g == "" || category == lowerStr g) &&
      (match cf.contains with
        | none => true
        | some g => g == "" || strIncludes category (lowerStr g)) &&
      (match cf.inList with
        | none => true
        | some l => l.any (fun c => category == lowerStr c))) &&
  (match f.tags with
    | none => true
    | some tf =>
      let productTags := p.tags.map lowerStr
      (match tf.hasAny with
        | none => true
        | some l => l.any (fun t => productTags.contains (lowerStr t))) &&
      (match tf.hasAll with
        | none => true
        | some l => l.all (fun t => productTags.contains (lowerStr t))) &&
      (match tf.excludes with
        | none => true
        | some l => !(l.any (fun t => productTags.contains (lowerStr t)))))

namespace BaseRecommendationStrategy

/-- Embeds `BaseRecommendationStrategy.filterProductsForStep`. -/
def filterProductsForStep (products : List Product) (cfg : StepConfiguration) :
    List Product :=
  products.filter (stepFilterPred cfg.filter)

end BaseRecommendationStrategy

namespace HairCareStrategy

/-- The ad-hoc negative predicate of the Treatment & Styling branch of
`HairCareStrategy.filterProductsForStep` (lines 209–212). -/
def treatmentStylingPred (p : Product) : Bool :=
  let category := lowerStr (jsOrEmpty p.category)
  !(strIncludes category "shampoo") && !(strIncludes category "conditioner")

/-- Embeds `HairCareStrategy.filterProductsForStep` (lines 206–217): steps named
`Treatment & Styling` get the negative filter, all others delegate to the base
implementation. -/
def filterProductsForStep (products : List Product) (cfg : StepConfiguration) :
    List Product :=
  if cfg.name == "Treatment & Styling" then products.filter treatmentStylingPred
  else BaseRecommendationStrategy.filterProductsForStep products cfg

/-- The `Cleansing` step configuration from `getStepConfigurations`. -/
def cleansingStep : StepConfiguration :=
  ⟨"Cleansing", 1, ⟨some ⟨none, some "shampoo", none⟩, none⟩⟩

/-- The `Conditioning` step configuration from `getStepConfigurations`. -/
def conditioningStep : StepConfiguration :=
  ⟨"Conditioning", 2, ⟨some ⟨none, some "conditioner", none⟩, none⟩⟩

/-- The `Treatment & Styling` step configuration from `getStepConfigurations`
(`contains: undefined` — an empty category filter object). -/
def treatmentStep : StepConfiguration :=
  ⟨"Treatment & Styling", 3, ⟨some ⟨none, none, none⟩, none⟩⟩

/-- Embeds `HairCareStrategy.getStepConfigurations` (lines 156–187). -/
def getStepConfigurations : List StepConfiguration :=
  [cleansingStep, conditioningStep, treatmentStep]

end HairCareStrategy

/-- A stored `"Product"` table row.  The SQL columns `category`, `image`,
`price` are nullable, hence `Option String`; the pgvector column is a `List ℚ`;
`createdAt` / `updatedAt` timestamps are `Nat`. -/
structure Row where
  shopifyId : String
  title : String
  description : String
  tags : List String
  category : Option String
  image : Option String
  price : Option String
  embedding : List ℚ
  createdAt : Nat
  updatedAt : Nat
  deriving Repr, DecidableEq

/-- SQL `COALESCE(a, b)` on a nullable string and a non-null parameter. -/
def sqlCoalesce (a : Option String) (b : String) : Option String :=
  match a with
  | some x => some x
  | none => some b

namespace ProductRepository

/-- The VALUES tuple of `ProductRepository.upsert`'s INSERT (part_008 lines
123–127): nullable JS fields are coerced with `?? ''`, so the inserted
`category` / `image` / `price` are always non-null strings. -/
def insertRow (p : Product) (emb : List ℚ) (now : Nat) : Row :=
  ⟨p.shopifyId, p.title, p.description, p.tags,
    some (jsOrEmpty p.category), some (jsOrEmpty p.image), some (jsOrEmpty p.price),
    emb, now, now⟩

/-- The `ON CONFLICT ("shopifyId") DO UPDATE SET` clause (part_008 lines
128–137) applied to the conflicting row `old`.  `EXCLUDED.x` is the value from
`insertRow`; the second COALESCE argument is again the `?? ''`-coerced
parameter. -/
def updateRow (old : Row) (p : Product) (emb : List ℚ) (now : Nat) : Row :=
  let excl := insertRow p emb now
  { old with
    title := excl.title
    description := excl.description
    tags := excl.tags
    category := sqlCoalesce excl.category (jsOrEmpty p.category)
    image := sqlCoalesce excl.image (jsOrEmpty p.image)
    price := sqlCoalesce excl.price (jsOrEmpty p.price)
    embedding := excl.embedding
    updatedAt := now
    createdAt := now }

/-- Embeds `ProductRepository.upsert` (part_008 lines 119–143) against a table with a
unique index on `shopifyId`: insert, or on conflict update the matching row. -/
def upsert (store : List Row) (p : Product) (emb : List ℚ) (now : Nat) :
    List Row :=
  if store.any (fun r => r.shopifyId == p.shopifyId) then
    store.map (fun r =>
      if r.shopifyId == p.shopifyId then updateRow r p emb now else r)
  else
    store ++ [insertRow p emb now]

/-- A result row of the similarity query: product columns plus
`1 - (embedding <=> query)` surfaced as `similarity`. -/
structure ProductWithSimilarity where
  shopifyId : String
  title : String
  description : String
  tags : List String
  category : Option String
  image : Option String
  price : Option String
  similarity : ℚ
  deriving Repr, DecidableEq

/-- Embeds `ProductRepository.findBySimilarity` (part_008 lines 12–46).  The SQL
`ORDER BY embedding <=> $query LIMIT $limit` is modelled as a stable sort of
the table by ascending distance followed by `take limit`; the pgvector cosine
distance operator `<=>` (an external collaborator) is the parameter `dist`. -/
def findBySimilarity (dist : List ℚ → List ℚ → ℚ) (store : List Row)
    (qemb : List ℚ) (limit : Nat) : List ProductWithSimilarity :=
  let sorted := store.insertionSort
    (fun a b => dist a.embedding qemb ≤ dist b.embedding qemb)
  (sorted.take limit).map (fun r =>
    ⟨r.shopifyId, r.title, r.description, r.tags, r.category, r.image, r.price,
      1 - dist r.embedding qemb⟩)

/-- JS `x || null` on a nullable string: the empty string collapses to null
(part_008 lines 74–79). -/
def jsOrNull (o : Option String) : Option String :=
  match o with
  | none => none
  | some s => if s == "" then none else some s

/-- The row-to-`Product` mapping of `ProductRepository.findByIds`. -/
def rowToProduct (r : Row) : Product :=
  ⟨r.shopifyId, r.title, r.description, r.tags,
    jsOrNull r.category, jsOrNull r.image, jsOrNull r.price⟩

/-- Embeds `ProductRepository.findByIds` (part_008 lines 48–87): short-circuit on an
empty id list, else `findMany where shopifyId in ids`. -/
def findByIds (store : List Row) (ids : List String) : List Product :=
  if ids.isEmpty then []
  else (store.filter (fun r => ids.contains r.shopifyId)).map rowToProduct

end ProductRepository

namespace CatalogService

/-- Embeds `CatalogService.createEmbeddingText` (catalog.service.ts lines 272–281):
keep the truthy, non-whitespace parts `[title, description, category,
tags.join(' ')]`, join with spaces, `substring(0, 8000)`. -/
def createEmbeddingText (p : Product) : String :=
  let parts := [p.title, p.description, jsOrEmpty p.category,
      String.intercalate " " p.tags].filter
    (fun s => !(s == "") && s.toList.any (fun c => !c.isWhitespace))
  String.mk ((String.intercalate " " parts).toList.take 8000)

/-- Embeds `EmbedProductsResponseDto`: the structured ingestion result. -/
structure EmbedProductsResponseDto where
  message : String
  productsProcessed : Nat
  errors : Option (List String)
  deriving Repr, DecidableEq

/-- Worker for `chunksOf20`, structurally recursive on a step counter that is
at least the list length (each step consumes at least one element). -/
def chunksGo : Nat → List Product → List (List Product)
  | 0, _ => []
  | _, [] => []
  | n + 1, p :: rest => (p :: rest.take 19) :: chunksGo n (rest.drop 19)

/-- The batching of `embedAndStoreProducts`: `products.slice(i, i + 20)` for
`i = 0, 20, 40, …`. -/
def chunksOf20 (l : List Product) : List (List Product) :=
  chunksGo l.length l

/-- The inner per-product loop of a successfully embedded batch
(catalog.service.ts lines 210–246): `resp.get? j` is
`embeddingsResponse.data[j]?.embedding` (`none` when the entry is missing or
not an array); `dbErr p` is the outcome of the raw upsert (`none` = committed,
`some msg` = the caught `dbError.message`).  Returns (successes, errors). -/
def storeBatch (dbErr : Product → Option String) :
    List Product → List (Option (List ℚ)) → Nat × List String
  | [], _ => (0, [])
  | p :: ps, resp =>
    let e : Option (List ℚ) := resp.head?.join
    let rec' := storeBatch dbErr ps resp.tail
    match e with
    | none => (rec'.1, ("Invalid embedding for product " ++ p.title) :: rec'.2)
    | some _ =>
      match dbErr p with
      | none => (rec'.1 + 1, rec'.2)
      | some msg =>
        (rec'.1, ("DB error for product " ++ p.title ++ ": " ++ msg) :: rec'.2)

/-- The batch loop of `embedAndStoreProducts` (lines 191–254).  `oracle n` is
the result of the `n`-th call to `openai.embeddings.create` (`none` = the call
threw).  On a thrown call the code does `delay(2000); i -= batchSize; continue`,
i.e. it re-enters the loop on the *same* batch — rendered by recursing on an
unchanged batch list.  That recursion is not structurally bounded in the
source, so the model carries `fuel` counting embedding calls; `none` means the
loop did not finish within `fuel` calls. -/
def ingestLoop (oracle : Nat → Option (List (Option (List ℚ))))
    (dbErr : Product → Option String) :
    List (List Product) → Nat → Nat → Nat → List String →
      Option (Nat × List String)
  | [], _, _, succ, errs => some (succ, errs)
  | _ :: _, _, 0, _, _ => none
  | batch :: rest, attempt, fuel + 1, succ, errs =>
    match oracle attempt with
    | none => ingestLoop oracle dbErr (batch :: rest) (attempt + 1) fuel succ errs
    | some resp =>
      let se := storeBatch dbErr batch resp
      ingestLoop oracle dbErr rest (attempt + 1) fuel (succ + se.1) (errs ++ se.2)

/-- Embeds `CatalogService.embedAndStoreProducts` (lines 177–269), after a successful
catalog fetch returned `products`.  `totalTime` stands for the wall-clock
figure interpolated into the success message. -/
def embedAndStoreProducts (oracle : Nat → Option (List (Option (List ℚ))))
    (dbErr : Product → Option String) (products : List Product)
    (totalTime : String) (fuel : Nat) : Option EmbedProductsResponseDto :=
  if products.isEmpty then
    some ⟨"No products found to embed", 0, none⟩
  else
    match ingestLoop oracle dbErr (chunksOf20 products) 0 fuel 0 [] with
    | none => none
    | some (succ, errs) =>
      some ⟨"Successfully embedded " ++ toString succ ++ " out of " ++
          toString products.length ++ " products in " ++ totalTime ++ "s",
        succ, if errs.isEmpty then none else some errs⟩

/-- A thrown JS error as observed by a `catch` block: its `name` and
`message`. -/
structure JsError where
  name : String
  message : String
  deriving Repr, DecidableEq

/-- What `searchProductsBySimilarity` throws: `ErrorResponseException` (the
"EmbeddingError") or a generic 500 `HttpException` (the "StoreError"). -/
inductive SearchFailure where
  | embeddingError (msg : String)
  | httpError (msg : String)
  deriving Repr, DecidableEq

/-- The catch-block test of `searchProductsBySimilarity` (lines 331):
`error.message?.includes('OpenAI') || error.name === 'APIError'`. -/
def isOpenAIStyleError (e : JsError) : Bool :=
  strIncludes e.message "OpenAI" || e.name == "APIError"

/-- The catch block of `searchProductsBySimilarity` (lines 327–339). -/
def classifyCaught (e : JsError) : SearchFailure :=
  if isOpenAIStyleError e then
    SearchFailure.embeddingError "Failed to generate embedding for search"
  else
    SearchFailure.httpError "Failed to search products"

/-- Embeds `CatalogService.searchProductsBySimilarity` (lines 302–340).  `embedCall`
is the single-item `openai.embeddings.create` outcome; `storeQuery v l` is the
outcome of the raw similarity query with query vector `v` and `LIMIT l` —
the caller-supplied `limit` reaches it untouched (no validation, so `l : ℤ`
admits 0 and out-of-range values).  Either throw lands in the same catch. -/
def searchProductsBySimilarity
    (embedCall : Except JsError (List ℚ))
    (storeQuery : List ℚ → ℤ → Except JsError (List ProductRepository.ProductWithSimilarity))
    (limit : ℤ) :
    Except SearchFailure (List ProductRepository.ProductWithSimilarity) :=
  match embedCall with
  | Except.error e => Except.error (classifyCaught e)
  | Except.ok qemb =>
    match storeQuery qemb limit with
    | Except.error e => Except.error (classifyCaught e)
    | Except.ok rows => Except.ok rows

/-- Embeds `CatalogService.getProductsByIds` (lines 342–367): short-circuit on an
empty id list, else `findMany where shopifyId in ids` (rows returned as-is). -/
def getProductsByIds (store : List Row) (ids : List String) : List Row :=
  if ids.isEmpty then []
  else store.filter (fun r => ids.contains r.shopifyId)

end CatalogService

/-- Embeds `CustomerProfile` (customer-profile.interface.ts): free-text attributes,
every list optional. -/
structure CustomerProfile where
  primaryAttribute : Option String
  concerns : Option (List String)
  services : Option (List String)
  currentRoutine : Option (List String)
  usagePatterns : Option (List String)
  restrictions : Option (List String)
  additionalInfo : Option String
  deriving Repr, DecidableEq

/-- A step of the generated routine. -/
structure RoutineStep where
  name : String
  order : Nat
  description : String
  products : List Product
  deriving Repr, DecidableEq

/-- Embeds `RecommendationResponse` (metadata reduced to the industry tag; the
`generatedAt` wall-clock timestamp is outside the model). -/
structure RecommendationResponse where
  message : String
  routine : List RoutineStep
  industry : String
  deriving Repr, DecidableEq

namespace HairCareStrategy

/-- JS `xs?.join(', ') || dflt`: missing list or empty join falls back. -/
def joinOr (xs : Option (List String)) (dflt : String) : String :=
  match xs with
  | none => dflt
  | some l =>
    let s := String.intercalate ", " l
    if s == "" then dflt else s

/-- JS `x || dflt` on an optional string. -/
def strOr (x : Option String) (dflt : String) : String :=
  match x with
  | none => dflt
  | some s => if s == "" then dflt else s

/-- Embeds `HairCareStrategy.generatePrompt` (lines 219–238): the template literal,
with its interpolations (leading/trailing indentation of the literal kept). -/
def generatePrompt (stepName : String) (profile : CustomerProfile)
    (products : List Product) : String :=
  let productTitles :=
    strOr (some (String.intercalate ", " (products.map Product.title)))
      "No specific products"
  "\n      You are a hair care expert.\n      Create a short, friendly description for the \"" ++
    stepName ++ "\" step of a customer's hair routine.\n\n      Customer profile:\n      - Hair color: " ++
    strOr profile.primaryAttribute "not specified" ++
    "\n      - Hair concerns: " ++ joinOr profile.concerns "none specified" ++
    "\n      - Salon services: " ++ joinOr profile.services "none" ++
    "\n      - Home routine: " ++ joinOr profile.currentRoutine "not specified" ++
    "\n      - Styling routine: " ++ joinOr profile.usagePatterns "not specified" ++
    "\n      - Allergies: " ++ joinOr profile.restrictions "none" ++
    "\n\n      Recommended products for this step: " ++ productTitles ++
    "\n\n      Keep it concise and actionable.\n    "

/-- The deterministic fallback description (lines 260 and 263). -/
def fallbackDescription (stepName : String) : String :=
  "Complete the " ++ stepName ++ " step using the recommended products."

/-- Embeds `BaseRecommendationStrategy.generateRecommendation` (lines 113–134) as
inherited by the haircare strategy: one empty-description step per
configuration, in configuration order, with the haircare filter override. -/
def baseGenerateRecommendation (products : List Product) :
    RecommendationResponse :=
  ⟨"Recommendation generated successfully",
    getStepConfigurations.map (fun cfg =>
      ⟨cfg.name, cfg.order, "", filterProductsForStep products cfg⟩),
    "haircare"⟩

/-- The per-step description pass of `HairCareStrategy.generateRecommendation`
(lines 248–265).  `ai prompt` is the `generateChatCompletion` outcome: `none` =
the call threw (caught, fallback), `some c` = returned content `c`
(`aiResponse.content || fallback` makes empty content fall back too). -/
def describeStep (ai : String → Option String) (profile : CustomerProfile)
    (step : RoutineStep) : RoutineStep :=
  { step with
    description :=
      match ai (generatePrompt step.name profile step.products) with
      | none => fallbackDescription step.name
      | some c => if c == "" then fallbackDescription step.name else c }

/-- Embeds `HairCareStrategy.generateRecommendation` (lines 243–268): the base
structure, then AI descriptions with per-step fallback. -/
def generateRecommendation (ai : String → Option String)
    (profile : CustomerProfile) (products : List Product) :
    RecommendationResponse :=
  let base := baseGenerateRecommendation products
  { base with routine := base.routine.map (describeStep ai profile) }

/-- The call-level failure condition of claim C5: the chat completion for the
step built from `cfg` either throws or returns empty content. -/
def stepPromptFails (ai : String → Option String) (profile : CustomerProfile)
    (products : List Product) (cfg : StepConfiguration) : Prop :=
  ai (generatePrompt cfg.name profile (filterProductsForStep products cfg)) = none ∨
  ai (generatePrompt cfg.name profile (filterProductsForStep products cfg)) = some ""

end HairCareStrategy

/-- The embedding-input string as claim C8 words it: the space-joined
concatenation of the non-empty, non-whitespace parts taken in the order title,
description, category, joined tags, truncated to at most 8000 characters.
Stated separately from `createEmbeddingText` so the two can be compared. -/
def claimedEmbeddingText (p : Product) : String :=
  let parts := [p.title, p.description, jsOrEmpty p.category,
      String.intercalate " " p.tags].filter
    (fun s => s.toList.any (fun c => !c.isWhitespace))
  String.mk ((String.intercalate " " parts).toList.take 8000)

/-! Concrete sample data used by counterexamples and witnesses. -/

/-- A minimal catalog item. -/
def productA : Product := ⟨"1", "A", "", [], none, none, none⟩

/-- Embedding-call schedule: the first two calls throw, every later call
returns one valid embedding. -/
def oracleFailTwice : Nat → Option (List (Option (List ℚ))) :=
  fun n => if n < 2 then none else some [some [1]]

/-- Embedding-call schedule: every call returns one valid embedding. -/
def oracleOk : Nat → Option (List (Option (List ℚ))) := fun _ => some [some [1]]

/-- A stored row whose optional columns are all populated. -/
def storedRow : Row :=
  ⟨"1", "Old", "old desc", [], some "Shampoo", some "img", some "9.99", [1], 0, 0⟩

/-- An incoming re-sync of the same catalog id with absent optional fields. -/
def incomingProduct : Product := ⟨"1", "New", "new desc", ["t"], none, none, none⟩

/-- A product whose category mentions both shampoo and conditioner. -/
def comboProduct : Product :=
  ⟨"p1", "Combo", "2in1", [], some "Shampoo Conditioner", none, none⟩

/-- A shampoo product. -/
def shampooProduct : Product := ⟨"p2", "Wash", "", [], some "shampoo", none, none⟩

/-- A step named `Treatment & Styling` carrying no filter at all. -/
def emptyTreatmentConfig : StepConfiguration :=
  ⟨"Treatment & Styling", 3, ⟨none, none⟩⟩

/-- A step named `Cleansing` carrying no filter at all. -/
def emptyCleansingConfig : StepConfiguration := ⟨"Cleansing", 1, ⟨none, none⟩⟩

/-- A customer profile with every attribute absent. -/
def emptyProfile : CustomerProfile := ⟨none, none, none, none, none, none, none⟩

/-- A constant distance function (a degenerate stand-in for `<=>`). -/
def distConst : List ℚ → List ℚ → ℚ := fun _ _ => 1

/-! ## Theorems -/

/-- Lemma: `List.contains` agrees with membership (for a lawful `BEq`). -/
theorem contains_mem_iff {α : Type} [BEq α] [LawfulBEq α] (l : List α) (a : α) :
    l.contains a = true ↔ a ∈ l :=
  List.elem_iff

/-- The JS truthiness guard `part && part.trim()` coincides with "contains a
non-whitespace character". -/
theorem truthy_trim_eq_any (s : String) :
    (!(s == "") && s.toList.any (fun c => !c.isWhitespace)) =
      s.toList.any (fun c => !c.isWhitespace) := by
  cases hs : s == "" with
  | true =>
    have : s = "" := eq_of_beq hs
    subst this
    rfl
  | false => simp

/-- C8: for every product, the canonical embedding-input string built during
ingestion is the space-joined concatenation of the product's non-empty,
non-whitespace parts taken in the order title, description, category, joined
tags, truncated to at most 8000 characters; in particular its length never
exceeds 8000.  (`createEmbeddingText` is a pure function of the product, so
the construction is deterministic.) -/
theorem claim_c8_embedding_text (p : Product) :
    CatalogService.createEmbeddingText p = claimedEmbeddingText p ∧
    (CatalogService.createEmbeddingText p).length ≤ 8000 := by
  constructor
  · unfold CatalogService.createEmbeddingText claimedEmbeddingText
    rw [List.filter_congr (fun a _ => truthy_trim_eq_any a)]
  · show ((String.intercalate " " _).toList.take 8000).length ≤ 8000
    rw [List.length_take]
    exact min_le_left _ _

/-- C7: `findByIds` (and `getProductsByIds`) called with an empty list returns
the empty list whatever the store contents (no query reaches the store); for a
non-empty list it returns exactly the stored products whose external catalog
id is in the list, and in particular an empty list when none match. -/
theorem claim_c7_find_by_ids (store : List Row) (ids : List String) :
    ProductRepository.findByIds store [] = [] ∧
    (∀ p, p ∈ ProductRepository.findByIds store ids ↔
      ∃ r, r ∈ store ∧ r.shopifyId ∈ ids ∧ p = ProductRepository.rowToProduct r) ∧
    CatalogService.getProductsByIds store [] = [] ∧
    (∀ q, q ∈ CatalogService.getProductsByIds store ids ↔
      q ∈ store ∧ q.shopifyId ∈ ids) := by
  refine ⟨rfl, ?_, rfl, ?_⟩
  · intro p
    by_cases hids : ids = []
    · subst hids
      simp [ProductRepository.findByIds]
    · have h : ids.isEmpty = false := by
        cases ids with
        | nil => exact absurd rfl hids
        | cons a l => rfl
      simp only [ProductRepository.findByIds, h, Bool.false_eq_true, if_false,
        List.mem_map, List.mem_filter, contains_mem_iff, decide_eq_true_eq]
      constructor
      · rintro ⟨r, ⟨hr, hrid⟩, hpr⟩
        exact ⟨r, hr, hrid, hpr.symm⟩
      · rintro ⟨r, hr, hrid, hpr⟩
        exact ⟨r, ⟨hr, hrid⟩, hpr.symm⟩
  · intro q
    by_cases hids : ids = []
    · subst hids
      simp [CatalogService.getProductsByIds]
    · have h : ids.isEmpty = false := by
        cases ids with
        | nil => exact absurd rfl hids
        | cons a l => rfl
      simp [CatalogService.getProductsByIds, h, List.mem_filter, contains_mem_iff]

/-- C10 counterexample: under the haircare override, a step configuration with
no category and no tag filter but named `Treatment & Styling` does **not**
return the whole input list, contradicting the claim's empty-filter clause. -/
theorem claim_c10_counterexample :
    HairCareStrategy.filterProductsForStep [shampooProduct] emptyTreatmentConfig ≠
      [shampooProduct] := by
  decide

/-- C10 amended: both filter implementations return a sublist of the input
(so every returned product occurs in the input, relative order is preserved,
and no input element is duplicated; the functions are pure, so the input is
not modified).  A step configuration with no category and no tag filter
returns the whole input list under the base implementation, and under the
haircare override provided the step is not named `Treatment & Styling` (a step
with that name always gets the negative catch-all filter instead). -/
theorem claim_c10_filter_sublist (products : List Product) (cfg : StepConfiguration) :
    (BaseRecommendationStrategy.filterProductsForStep products cfg).Sublist products ∧
    (HairCareStrategy.filterProductsForStep products cfg).Sublist products ∧
    (cfg.filter = ⟨none, none⟩ →
      BaseRecommendationStrategy.filterProductsForStep products cfg = products) ∧
    (cfg.filter = ⟨none, none⟩ → cfg.name ≠ "Treatment & Styling" →
      HairCareStrategy.filterProductsForStep products cfg = products) := by
  have hbase : ∀ hf : cfg.filter = ⟨none, none⟩,
      BaseRecommendationStrategy.filterProductsForStep products cfg = products := by
    intro hf
    unfold BaseRecommendationStrategy.filterProductsForStep
    rw [hf]
    exact List.filter_eq_self.mpr (fun a _ => rfl)
  refine ⟨List.filter_sublist _, ?_, hbase, ?_⟩
  · unfold HairCareStrategy.filterProductsForStep
    split
    · exact List.filter_sublist _
    · exact List.filter_sublist _
  · intro hf hname
    unfold HairCareStrategy.filterProductsForStep
    rw [if_neg, hbase hf]
    simp only [beq_eq_false_iff_ne.mpr hname, Bool.false_eq_true, not_false_eq_true]

/-- C10 witness: the empty-filter clause at a concrete non-`Treatment &
Styling` configuration. -/
theorem claim_c10_witness :
    HairCareStrategy.filterProductsForStep [shampooProduct] emptyCleansingConfig =
      [shampooProduct] :=
  (claim_c10_filter_sublist [shampooProduct] emptyCleansingConfig).2.2.2 rfl (by decide)

/-- C3 counterexample: a product whose category contains both `shampoo` and
`conditioner` is placed in the Cleansing step **and** in the Conditioning
step, so the three haircare steps do not partition the input. -/
theorem claim_c3_counterexample :
    comboProduct ∈ HairCareStrategy.filterProductsForStep [comboProduct]
        HairCareStrategy.cleansingStep ∧
    comboProduct ∈ HairCareStrategy.filterProductsForStep [comboProduct]
        HairCareStrategy.conditioningStep := by
  decide

/-- C3 amended: for the haircare strategy, every input product lands in at
least one of the three steps, and the Treatment & Styling step is exactly the
catch-all of products claimed by neither category predicate — so the three
steps cover the input and the catch-all is disjoint from the other two, but a
product whose category contains both `shampoo` and `conditioner` lands in both
of the first two steps (the partition property fails only there). -/
theorem claim_c3_amended (products : List Product) (p : Product) (hp : p ∈ products) :
    (p ∈ HairCareStrategy.filterProductsForStep products HairCareStrategy.cleansingStep ∨
     p ∈ HairCareStrategy.filterProductsForStep products HairCareStrategy.conditioningStep ∨
     p ∈ HairCareStrategy.filterProductsForStep products HairCareStrategy.treatmentStep) ∧
    (p ∈ HairCareStrategy.filterProductsForStep products HairCareStrategy.treatmentStep ↔
      (p ∉ HairCareStrategy.filterProductsForStep products HairCareStrategy.cleansingStep ∧
       p ∉ HairCareStrategy.filterProductsForStep products HairCareStrategy.conditioningStep)) ∧
    (p ∈ HairCareStrategy.filterProductsForStep products HairCareStrategy.cleansingStep ↔
      strIncludes (lowerStr (jsOrEmpty p.category)) "shampoo" = true) ∧
    (p ∈ HairCareStrategy.filterProductsForStep products HairCareStrategy.conditioningStep ↔
      strIncludes (lowerStr (jsOrEmpty p.category)) "conditioner" = true) := by
  have hsham : lowerStr "shampoo" = "shampoo" := by decide
  have hcond : lowerStr "conditioner" = "conditioner" := by decide
  have h1 : p ∈ HairCareStrategy.filterProductsForStep products
      HairCareStrategy.cleansingStep ↔
      strIncludes (lowerStr (jsOrEmpty p.category)) "shampoo" = true := by
    simp [HairCareStrategy.filterProductsForStep, HairCareStrategy.cleansingStep,
      BaseRecommendationStrategy.filterProductsForStep, stepFilterPred,
      List.mem_filter, hp, hsham, String.reduceBEq]
  have h2 : p ∈ HairCareStrategy.filterProductsForStep products
      HairCareStrategy.conditioningStep ↔
      strIncludes (lowerStr (jsOrEmpty p.category)) "conditioner" = true := by
    simp [HairCareStrategy.filterProductsForStep, HairCareStrategy.conditioningStep,
      BaseRecommendationStrategy.filterProductsForStep, stepFilterPred,
      List.mem_filter, hp, hcond, String.reduceBEq]
  have h3 : p ∈ HairCareStrategy.filterProductsForStep products
      HairCareStrategy.treatmentStep ↔
      (strIncludes (lowerStr (jsOrEmpty p.category)) "shampoo" = false ∧
       strIncludes (lowerStr (jsOrEmpty p.category)) "conditioner" = false) := by
    simp [HairCareStrategy.filterProductsForStep, HairCareStrategy.treatmentStep,
      HairCareStrategy.treatmentStylingPred, List.mem_filter, hp, String.reduceBEq]
  refine ⟨?_, ?_, h1, h2⟩
  · rw [h1, h2, h3]
    cases strIncludes (lowerStr (jsOrEmpty p.category)) "shampoo" <;>
      cases strIncludes (lowerStr (jsOrEmpty p.category)) "conditioner" <;> simp
  · rw [h1, h2, h3]
    cases strIncludes (lowerStr (jsOrEmpty p.category)) "shampoo" <;>
      cases strIncludes (lowerStr (jsOrEmpty p.category)) "conditioner" <;> simp

/-- C3 witness: the amended characterization at a concrete shampoo product. -/
theorem claim_c3_amended_witness :
    shampooProduct ∈ HairCareStrategy.filterProductsForStep [shampooProduct]
      HairCareStrategy.cleansingStep :=
  (claim_c3_amended [shampooProduct] shampooProduct (by decide)).2.2.1.mpr (by decide)

/-- On a conflicting row (same key), the update clause rewrites every mutable
column to the freshly inserted values, so the updated row equals the row the
insert would have produced. -/
theorem updateRow_eq_insertRow (old : Row) (p : Product) (emb : List ℚ) (now : Nat)
    (h : old.shopifyId = p.shopifyId) :
    ProductRepository.updateRow old p emb now = ProductRepository.insertRow p emb now := by
  cases old
  simp_all [ProductRepository.updateRow, ProductRepository.insertRow, sqlCoalesce]

/-- Rows whose key differs from the upserted key are untouched by the
conflict-update map. -/
theorem map_update_of_no_match (p : Product) (emb : List ℚ) (now : Nat) :
    ∀ l : List Row, (∀ b ∈ l, (b.shopifyId == p.shopifyId) = false) →
      l.map (fun x => if x.shopifyId == p.shopifyId
        then ProductRepository.updateRow x p emb now else x) = l := by
  intro l hl
  induction l with
  | nil => rfl
  | cons a as iha =>
    simp only [List.map_cons, hl a (by simp), Bool.false_eq_true, if_false,
      List.cons.injEq, true_and]
    exact iha (fun b hb => hl b (by simp [hb]))

/-- Conflict case of the upsert: with unique keys in the store and a matching
row present, the mapped store holds exactly one row with the upserted key —
the freshly built one — and all other rows unchanged. -/
theorem upsert_map_filter (p : Product) (emb : List ℚ) (now : Nat) :
    ∀ store : List Row,
      store.Pairwise (fun a b => a.shopifyId ≠ b.shopifyId) →
      store.any (fun r => r.shopifyId == p.shopifyId) = true →
      ((store.map (fun r => if r.shopifyId == p.shopifyId
          then ProductRepository.updateRow r p emb now else r)).filter
          (fun r => r.shopifyId == p.shopifyId) =
        [ProductRepository.insertRow p emb now] ∧
       (store.map (fun r => if r.shopifyId == p.shopifyId
          then ProductRepository.updateRow r p emb now else r)).filter
          (fun r => !(r.shopifyId == p.shopifyId)) =
        store.filter (fun r => !(r.shopifyId == p.shopifyId))) := by
  intro store
  induction store with
  | nil => intro _ h; simp at h
  | cons r rest ih =>
    intro hpw hany
    obtain ⟨hhead, hrest⟩ := List.pairwise_cons.mp hpw
    by_cases hr : (r.shopifyId == p.shopifyId) = true
    · have hrEq : r.shopifyId = p.shopifyId := eq_of_beq hr
      have hrestFalse : ∀ b ∈ rest, (b.shopifyId == p.shopifyId) = false := by
        intro b hb
        exact beq_eq_false_iff_ne.mpr (fun e => hhead b hb (hrEq.trans e.symm))
      have hmap := map_update_of_no_match p emb now rest hrestFalse
      have hinsKey : ((ProductRepository.insertRow p emb now).shopifyId ==
          p.shopifyId) = true := by
        simp [ProductRepository.insertRow]
      constructor
      · simp only [List.map_cons, hr, if_true, updateRow_eq_insertRow r p emb now hrEq,
          hmap, List.filter_cons, hinsKey, if_true]
        rw [List.filter_eq_nil_iff.mpr]
        intro b hb
        simp [hrestFalse b hb]
      · simp only [List.map_cons, hr, if_true, updateRow_eq_insertRow r p emb now hrEq,
          hmap, List.filter_cons, hinsKey, hr, Bool.not_true, Bool.false_eq_true, if_false]
    · have hr' : (r.shopifyId == p.shopifyId) = false := by
        cases h : r.shopifyId == p.shopifyId
        · rfl
        · exact absurd h hr
      have hany' : rest.any (fun x => x.shopifyId == p.shopifyId) = true := by
        simp only [List.any_cons, hr', Bool.false_or] at hany
        exact hany
      obtain ⟨ih1, ih2⟩ := ih hrest hany'
      constructor
      · simp only [List.map_cons, hr', Bool.false_eq_true, if_false, List.filter_cons,
          ih1]
      · simp only [List.map_cons, hr', Bool.false_eq_true, if_false, List.filter_cons,
          Bool.not_false, if_true, ih2]

/-- C2 counterexample: a stored row with category `Shampoo` upserted with an
incoming product whose category is absent ends with category `''`, not the
previously stored `Shampoo` — the incoming empty value **does** erase the
stored one (the COALESCE never sees a NULL, because the inserted values are
`?? ''`-coerced). -/
theorem claim_c2_counterexample :
    storedRow.category = some "Shampoo" ∧ incomingProduct.category = none ∧
    (ProductRepository.upsert [storedRow] incomingProduct [2] 7).map Row.category =
      [some ""] := by
  decide

/-- C2 amended: upsert keyed by the external catalog id replaces **all** of
title, description, tags, category, image, price and the embedding with the
incoming values, coercing an absent or null category/image/price to the empty
string (the stored value is never kept); rows with other keys are untouched,
and exactly one row with the upserted key exists afterwards. -/
theorem claim_c2_amended (store : List Row) (p : Product) (emb : List ℚ) (now : Nat)
    (huniq : store.Pairwise (fun a b => a.shopifyId ≠ b.shopifyId)) :
    (ProductRepository.upsert store p emb now).filter
        (fun r => r.shopifyId == p.shopifyId) =
      [ProductRepository.insertRow p emb now] ∧
    (ProductRepository.upsert store p emb now).filter
        (fun r => !(r.shopifyId == p.shopifyId)) =
      store.filter (fun r => !(r.shopifyId == p.shopifyId)) := by
  unfold ProductRepository.upsert
  by_cases hany : store.any (fun r => r.shopifyId == p.shopifyId) = true
  · simp only [hany, if_true]
    exact upsert_map_filter p emb now store huniq hany
  · have hany' : store.any (fun r => r.shopifyId == p.shopifyId) = false := by
      cases h : store.any (fun r => r.shopifyId == p.shopifyId)
      · rfl
      · exact absurd h hany
    have hnone : ∀ r ∈ store, (r.shopifyId == p.shopifyId) = false := by
      intro r hr
      cases h : r.shopifyId == p.shopifyId
      · rfl
      · exact absurd (List.any_eq_true.mpr ⟨r, hr, h⟩) hany
    have hinsKey : ((ProductRepository.insertRow p emb now).shopifyId ==
        p.shopifyId) = true := by
      simp [ProductRepository.insertRow]
    simp only [hany', Bool.false_eq_true, if_false]
    constructor
    · rw [List.filter_append, List.filter_eq_nil_iff.mpr
        (fun b hb => by simp [hnone b hb])]
      simp [hinsKey]
    · rw [List.filter_append]
      simp [hinsKey]

/-- C2 witness: the amended upsert characterization at the concrete
single-row store. -/
theorem claim_c2_witness :
    (ProductRepository.upsert [storedRow] incomingProduct [2] 7).filter
        (fun r => r.shopifyId == incomingProduct.shopifyId) =
      [ProductRepository.insertRow incomingProduct [2] 7] :=
  (claim_c2_amended [storedRow] incomingProduct [2] 7 (by simp)).1

/-- When the chat completion for a step throws or returns empty content, the
description pass substitutes the deterministic fallback and keeps the step's
name, order and products. -/
theorem describeStep_fallback (ai : String → Option String)
    (profile : CustomerProfile) (products : List Product) (cfg : StepConfiguration)
    (hfail : HairCareStrategy.stepPromptFails ai profile products cfg) :
    HairCareStrategy.describeStep ai profile
      ⟨cfg.name, cfg.order, "", HairCareStrategy.filterProductsForStep products cfg⟩ =
      ⟨cfg.name, cfg.order, HairCareStrategy.fallbackDescription cfg.name,
        HairCareStrategy.filterProductsForStep products cfg⟩ := by
  unfold HairCareStrategy.describeStep
  rcases hfail with h | h
  · rw [h]
  · rw [h]
    rfl

/-- C5: if the text-generation call for a haircare step throws or returns
empty content, that step's description equals exactly
`Complete the {step name} step using the recommended products.` with the
step's name substituted; the failure does not propagate — the response still
carries the success message, all three steps in order, and each step's
filtered product list. -/
theorem claim_c5_generation_fallback (ai : String → Option String)
    (profile : CustomerProfile) (products : List Product) (cfg : StepConfiguration)
    (hcfg : cfg ∈ HairCareStrategy.getStepConfigurations)
    (hfail : HairCareStrategy.stepPromptFails ai profile products cfg) :
    (HairCareStrategy.generateRecommendation ai profile products).message =
      "Recommendation generated successfully" ∧
    (HairCareStrategy.generateRecommendation ai profile products).routine.map
        RoutineStep.name = ["Cleansing", "Conditioning", "Treatment & Styling"] ∧
    (HairCareStrategy.generateRecommendation ai profile products).routine.map
        (fun s => (s.name, s.order, s.products)) =
      HairCareStrategy.getStepConfigurations.map (fun c =>
        (c.name, c.order, HairCareStrategy.filterProductsForStep products c)) ∧
    (⟨cfg.name, cfg.order, HairCareStrategy.fallbackDescription cfg.name,
        HairCareStrategy.filterProductsForStep products cfg⟩ : RoutineStep) ∈
      (HairCareStrategy.generateRecommendation ai profile products).routine := by
  have hroutine : (HairCareStrategy.generateRecommendation ai profile products).routine =
      HairCareStrategy.getStepConfigurations.map (fun c =>
        HairCareStrategy.describeStep ai profile
          ⟨c.name, c.order, "", HairCareStrategy.filterProductsForStep products c⟩) := by
    simp [HairCareStrategy.generateRecommendation,
      HairCareStrategy.baseGenerateRecommendation, List.map_map]
  refine ⟨rfl, ?_, ?_, ?_⟩
  · rw [hroutine]
    simp [HairCareStrategy.getStepConfigurations, HairCareStrategy.cleansingStep,
      HairCareStrategy.conditioningStep, HairCareStrategy.treatmentStep,
      HairCareStrategy.describeStep]
  · rw [hroutine, List.map_map]
    apply List.map_congr_left
    intro c _
    simp [HairCareStrategy.describeStep, Function.comp]
  · rw [hroutine]
    exact describeStep_fallback ai profile products cfg hfail ▸
      List.mem_map_of_mem _ hcfg

/-- C5 witness: with an always-throwing text generator, the Cleansing step of
the generated routine carries the fallback description. -/
theorem claim_c5_witness :
    (⟨"Cleansing", 1, HairCareStrategy.fallbackDescription "Cleansing",
        HairCareStrategy.filterProductsForStep [] HairCareStrategy.cleansingStep⟩ :
      RoutineStep) ∈
      (HairCareStrategy.generateRecommendation (fun _ => none) emptyProfile []).routine :=
  (claim_c5_generation_fallback (fun _ => none) emptyProfile []
    HairCareStrategy.cleansingStep (by decide) (Or.inl rfl)).2.2.2

/-- C4: `findBySimilarity` returns at most `limit` products, ordered by
ascending vector distance, each carrying `similarity = 1 − distance`; for all
positions `i < j` the similarity at `i` is at least the similarity at `j`, and
when the distance function ranges over `[0, 2]` (as pgvector's cosine distance
does) every similarity lies in `[−1, 1]`.  The model is a pure function of the
store state, so the result is deterministic (ties are broken by the stable
sort order). -/
theorem claim_c4_similarity (dist : List ℚ → List ℚ → ℚ) (store : List Row)
    (qemb : List ℚ) (limit : Nat)
    (hdist : ∀ v w, 0 ≤ dist v w ∧ dist v w ≤ 2) :
    (ProductRepository.findBySimilarity dist store qemb limit).length ≤ limit ∧
    (∀ i j : Fin (ProductRepository.findBySimilarity dist store qemb limit).length,
      i < j →
      ((ProductRepository.findBySimilarity dist store qemb limit).get j).similarity ≤
        ((ProductRepository.findBySimilarity dist store qemb limit).get i).similarity) ∧
    (∀ x ∈ ProductRepository.findBySimilarity dist store qemb limit,
      (-1 ≤ x.similarity ∧ x.similarity ≤ 1) ∧
      ∃ r ∈ store, x.similarity = 1 - dist r.embedding qemb) := by
  have hres : ProductRepository.findBySimilarity dist store qemb limit =
      ((store.insertionSort
          (fun a b => dist a.embedding qemb ≤ dist b.embedding qemb)).take limit).map
        (fun r => ⟨r.shopifyId, r.title, r.description, r.tags, r.category, r.image,
          r.price, 1 - dist r.embedding qemb⟩) := rfl
  haveI htot : IsTotal Row (fun a b => dist a.embedding qemb ≤ dist b.embedding qemb) :=
    ⟨fun a b => le_total _ _⟩
  haveI htrans : IsTrans Row (fun a b => dist a.embedding qemb ≤ dist b.embedding qemb) :=
    ⟨fun _ _ _ hab hbc => le_trans hab hbc⟩
  have hsorted := List.sorted_insertionSort
    (fun a b => dist a.embedding qemb ≤ dist b.embedding qemb) store
  refine ⟨?_, ?_, ?_⟩
  · rw [hres, List.length_map, List.length_take]
    exact min_le_left _ _
  · have hpw : ((store.insertionSort
        (fun a b => dist a.embedding qemb ≤ dist b.embedding qemb)).take limit).Pairwise
        (fun a b => dist a.embedding qemb ≤ dist b.embedding qemb) :=
      List.Pairwise.sublist (List.take_sublist _ _) hsorted
    have hpw2 : (ProductRepository.findBySimilarity dist store qemb limit).Pairwise
        (fun x y => y.similarity ≤ x.similarity) := by
      rw [hres]
      exact List.pairwise_map.mpr (hpw.imp (fun h => by
        simpa using sub_le_sub_left h 1))
    exact fun i j hij => List.pairwise_iff_get.mp hpw2 i j hij
  · intro x hx
    rw [hres] at hx
    obtain ⟨r, hrt, rfl⟩ := List.mem_map.mp hx
    have hrStore : r ∈ store :=
      (List.perm_insertionSort
        (fun a b => dist a.embedding qemb ≤ dist b.embedding qemb) store).mem_iff.mp
        ((List.take_sublist _ _).subset hrt)
    obtain ⟨h0, h2⟩ := hdist r.embedding qemb
    exact ⟨⟨by simp only [ProductRepository.ProductWithSimilarity.similarity]; linarith,
      by simp only [ProductRepository.ProductWithSimilarity.similarity]; linarith⟩,
      r, hrStore, rfl⟩

/-- C4 witness: the similarity-search properties at a concrete one-row store
with a constant distance function. -/
theorem claim_c4_witness :
    (ProductRepository.findBySimilarity distConst [storedRow] [] 1).length ≤ 1 ∧
    (∀ i j : Fin (ProductRepository.findBySimilarity distConst [storedRow] [] 1).length,
      i < j →
      ((ProductRepository.findBySimilarity distConst [storedRow] [] 1).get j).similarity ≤
        ((ProductRepository.findBySimilarity distConst [storedRow] [] 1).get i).similarity) ∧
    (∀ x ∈ ProductRepository.findBySimilarity distConst [storedRow] [] 1,
      (-1 ≤ x.similarity ∧ x.similarity ≤ 1) ∧
      ∃ r ∈ [storedRow], x.similarity = 1 - distConst r.embedding []) :=
  claim_c4_similarity distConst [storedRow] [] 1
    (fun v w => by norm_num [distConst])

/-- Each product of a batch contributes exactly one success or one recorded
error string. -/
theorem storeBatch_count (dbErr : Product → Option String) :
    ∀ (batch : List Product) (resp : List (Option (List ℚ))),
      (CatalogService.storeBatch dbErr batch resp).1 +
        (CatalogService.storeBatch dbErr batch resp).2.length = batch.length := by
  intro batch
  induction batch with
  | nil => intro resp; rfl
  | cons p ps ih =>
    intro resp
    have := ih resp.tail
    unfold CatalogService.storeBatch
    cases resp.head?.join with
    | none => simp only [List.length_cons, List.length_cons]; omega
    | some emb =>
      cases dbErr p with
      | none => simp only [List.length_cons]; omega
      | some msg => simp only [List.length_cons]; omega

/-- When every embedding call returns a response and the fuel covers the batch
count, the batch loop terminates with one success-or-error per product. -/
theorem ingestLoop_total (oracle : Nat → Option (List (Option (List ℚ))))
    (dbErr : Product → Option String) (hor : ∀ n, (oracle n).isSome = true) :
    ∀ (batches : List (List Product)) (attempt fuel succ : Nat) (errs : List String),
      batches.length ≤ fuel →
      ∃ s e, CatalogService.ingestLoop oracle dbErr batches attempt fuel succ errs =
          some (succ + s, errs ++ e) ∧
        s + e.length = (batches.map List.length).sum := by
  intro batches
  induction batches with
  | nil =>
    intro attempt fuel succ errs _
    exact ⟨0, [], by simp [CatalogService.ingestLoop], by simp⟩
  | cons b rest ih =>
    intro attempt fuel succ errs hfuel
    cases fuel with
    | zero => simp at hfuel
    | succ f =>
      obtain ⟨resp, hresp⟩ := Option.isSome_iff_exists.mp (hor attempt)
      obtain ⟨s', e', hrec, hcount⟩ :=
        ih (attempt + 1) f (succ + (CatalogService.storeBatch dbErr b resp).1)
          (errs ++ (CatalogService.storeBatch dbErr b resp).2)
          (by simpa using Nat.lt_succ_iff.mp (Nat.lt_of_lt_of_le (by simp) hfuel))
      refine ⟨(CatalogService.storeBatch dbErr b resp).1 + s',
        (CatalogService.storeBatch dbErr b resp).2 ++ e', ?_, ?_⟩
      · unfold CatalogService.ingestLoop
        rw [hresp]
        simpa [Nat.add_assoc, List.append_assoc] using hrec
      · have := storeBatch_count dbErr b resp
        simp only [List.map_cons, List.sum_cons, List.length_append]
        omega

/-- The 20-chunking covers the input: chunk lengths sum to the input length. -/
theorem chunksGo_sum :
    ∀ (n : Nat) (l : List Product), l.length ≤ n →
      ((CatalogService.chunksGo n l).map List.length).sum = l.length := by
  intro n
  induction n with
  | zero =>
    intro l hl
    cases l with
    | nil => rfl
    | cons p rest => simp at hl
  | succ m ih =>
    intro l hl
    cases l with
    | nil => rfl
    | cons p rest =>
      have hrest : (rest.drop 19).length ≤ m := by
        simp only [List.length_drop]
        simp only [List.length_cons] at hl
        omega
      simp only [CatalogService.chunksGo, List.map_cons, List.sum_cons, ih _ hrest,
        List.length_cons, List.length_take, List.length_drop]
      omega

/-- The 20-chunking produces at most as many batches as there are products. -/
theorem chunksGo_length_le :
    ∀ (n : Nat) (l : List Product), (CatalogService.chunksGo n l).length ≤ n := by
  intro n
  induction n with
  | zero =>
    intro l
    cases l <;> simp [CatalogService.chunksGo]
  | succ m ih =>
    intro l
    cases l with
    | nil => simp [CatalogService.chunksGo]
    | cons p rest =>
      simp only [CatalogService.chunksGo, List.length_cons]
      exact Nat.succ_le_succ (ih _)

/-- C6: when the catalog fetch succeeds and every batched embedding call
returns a response, ingestion returns a structured result rather than
throwing: each product is accounted for exactly once, either in the success
count or as one per-item error string (invalid embeddings and store-write
failures are recorded and skipped without aborting), an absent error list
means every product succeeded, and an empty catalog yields the distinct
"nothing to do" result with zero products processed. -/
theorem claim_c6_structured_result (oracle : Nat → Option (List (Option (List ℚ))))
    (dbErr : Product → Option String) (products : List Product) (totalTime : String)
    (fuel : Nat) (hor : ∀ n, (oracle n).isSome = true)
    (hfuel : products.length ≤ fuel) :
    (products = [] →
      CatalogService.embedAndStoreProducts oracle dbErr products totalTime fuel =
        some ⟨"No products found to embed", 0, none⟩) ∧
    ∃ r, CatalogService.embedAndStoreProducts oracle dbErr products totalTime fuel =
        some r ∧
      r.productsProcessed + (r.errors.getD []).length = products.length ∧
      (r.errors = none → r.productsProcessed = products.length) := by
  cases products with
  | nil =>
    exact ⟨fun _ => rfl, ⟨"No products found to embed", 0, none⟩, rfl, rfl, fun _ => rfl⟩
  | cons p rest =>
    refine ⟨fun h => absurd h (by simp), ?_⟩
    have hbatches : (CatalogService.chunksOf20 (p :: rest)).length ≤ fuel :=
      le_trans (le_trans (chunksGo_length_le _ _) (by simp)) hfuel
    obtain ⟨s, e, hloop, hcount⟩ :=
      ingestLoop_total oracle dbErr hor (CatalogService.chunksOf20 (p :: rest)) 0 fuel 0 []
        hbatches
    have hsum : ((CatalogService.chunksOf20 (p :: rest)).map List.length).sum =
        (p :: rest).length :=
      chunksGo_sum _ _ (le_refl _)
    refine ⟨⟨"Successfully embedded " ++ toString s ++ " out of " ++
        toString (p :: rest).length ++ " products in " ++ totalTime ++ "s", s,
      if e.isEmpty then none else some e⟩, ?_, ?_, ?_⟩
    · unfold CatalogService.embedAndStoreProducts
      rw [if_neg (by simp)]
      rw [show CatalogService.ingestLoop oracle dbErr
          (CatalogService.chunksOf20 (p :: rest)) 0 fuel 0 [] = some (s, e) by
        simpa using hloop]
    · rw [hsum] at hcount
      cases e with
      | nil =>
        simp at hcount ⊢
        omega
      | cons x xs =>
        simp at hcount ⊢
        omega
    · intro hnone
      rw [hsum] at hcount
      cases e with
      | nil =>
        simp at hcount ⊢
        omega
      | cons x xs => simp at hnone

/-- C6 witness: the structured result at a concrete one-product catalog with
an always-succeeding embedding call and store. -/
theorem claim_c6_witness :
    ([productA] = [] →
      CatalogService.embedAndStoreProducts oracleOk (fun _ => none) [productA] "0.00" 1 =
        some ⟨"No products found to embed", 0, none⟩) ∧
    ∃ r, CatalogService.embedAndStoreProducts oracleOk (fun _ => none) [productA] "0.00" 1 =
        some r ∧
      r.productsProcessed + (r.errors.getD []).length = [productA].length ∧
      (r.errors = none → r.productsProcessed = [productA].length) :=
  claim_c6_structured_result oracleOk (fun _ => none) [productA] "0.00" 1
    (fun n => rfl) (by decide)

/-- The batch loop never terminates while the embedding call keeps throwing:
whatever the remaining fuel, the same batch is retried again. -/
theorem ingestLoop_none_forever (dbErr : Product → Option String)
    (batch : List Product) (rest : List (List Product)) (succ : Nat)
    (errs : List String) :
    ∀ (fuel attempt : Nat),
      CatalogService.ingestLoop (fun _ => none) dbErr (batch :: rest) attempt fuel
        succ errs = none := by
  intro fuel
  induction fuel with
  | zero => intro attempt; rfl
  | succ f ih =>
    intro attempt
    simpa [CatalogService.ingestLoop] using ih (attempt + 1)

/-- C1 (code bug): the spec's single-retry-then-abandon policy — also stated
by the code's own comment `retry current batch once` — is not what the code
does.  With one product whose batch's embedding call fails exactly twice and
then succeeds, the run retries until success: it reports 1 of 1 products
processed and **no** errors, where the claim requires `processedCount = N −
|batch k| = 0` and at least one recorded error.  And when the embedding call
fails persistently, the loop never terminates at any fuel (and would record no
errors for the abandoned batch either way). -/
theorem claim_c1_code_bug :
    (CatalogService.embedAndStoreProducts oracleFailTwice (fun _ => none) [productA]
        "0.00" 5).map (fun r => (r.productsProcessed, r.errors)) = some (1, none) ∧
    ∀ fuel, CatalogService.embedAndStoreProducts (fun _ => none) (fun _ => none)
        [productA] "0.00" fuel = none := by
  constructor
  · decide
  · intro fuel
    unfold CatalogService.embedAndStoreProducts
    rw [if_neg (by simp)]
    rw [show CatalogService.chunksOf20 [productA] = [[productA]] from rfl]
    rw [ingestLoop_none_forever (fun _ => none) [productA] [] 0 [] fuel 0]

/-- C9 counterexample: an embedding-adapter failure whose error is a plain
network error (message `connect ETIMEDOUT`, name `Error`) is **not** surfaced
as the EmbeddingError — the catch block classifies by sniffing the message for
`OpenAI` (or name `APIError`), so this adapter failure is thrown as the
generic store-side 500, contradicting "fails with an EmbeddingError whenever
the embedding adapter call fails". -/
theorem claim_c9_counterexample :
    CatalogService.searchProductsBySimilarity
        (Except.error ⟨"Error", "connect ETIMEDOUT"⟩) (fun _ _ => Except.ok []) 10 =
      Except.error (CatalogService.SearchFailure.httpError "Failed to search products") :=
  rfl

/-- C9 amended: `searchProductsBySimilarity` funnels any throw — from the
embedding call or from the store query — through one catch block that throws
the EmbeddingError exactly when the caught error's message contains `OpenAI`
or its name is `APIError`, and the generic 500 otherwise; on the success path
the caller-supplied limit (including out-of-range values such as 0) reaches
the store query unvalidated and unaltered. -/
theorem claim_c9_error_classification
    (storeQuery : List ℚ → ℤ → Except CatalogService.JsError
      (List ProductRepository.ProductWithSimilarity))
    (limit : ℤ) (qemb : List ℚ) (e : CatalogService.JsError) :
    (CatalogService.searchProductsBySimilarity (Except.error e) storeQuery limit =
      Except.error (CatalogService.classifyCaught e)) ∧
    (storeQuery qemb limit = Except.error e →
      CatalogService.searchProductsBySimilarity (Except.ok qemb) storeQuery limit =
        Except.error (CatalogService.classifyCaught e)) ∧
    (∀ rows, storeQuery qemb limit = Except.ok rows →
      CatalogService.searchProductsBySimilarity (Except.ok qemb) storeQuery limit =
        Except.ok rows) ∧
    (CatalogService.classifyCaught e =
        CatalogService.SearchFailure.embeddingError "Failed to generate embedding for search" ↔
      (strIncludes e.message "OpenAI" || e.name == "APIError") = true) := by
  refine ⟨rfl, ?_, ?_, ?_⟩
  · intro herr
    simp [CatalogService.searchProductsBySimilarity, herr]
  · intro rows hok
    simp [CatalogService.searchProductsBySimilarity, hok]
  · unfold CatalogService.classifyCaught CatalogService.isOpenAIStyleError
    by_cases h : (strIncludes e.message "OpenAI" || e.name == "APIError") = true
    · simp [h]
    · simp [h]

/-- C9 witness: the classification and the untouched pass-through of the
out-of-range limit 0 at concrete inputs. -/
theorem claim_c9_witness :
    CatalogService.searchProductsBySimilarity (Except.ok []) (fun _ _ => Except.ok []) 0 =
      Except.ok [] :=
  (claim_c9_error_classification (fun _ _ => Except.ok []) 0 [] ⟨"APIError", "x"⟩).2.2.1
    [] rfl

end Aiva
